import Mathlib

/-!
Verification of the YouTube transcript CLI wrapper (`main.py`).

The development shallowly embeds the program's data model and operations:
Python strings are Lean `String`s (lists of characters), Python floats are
modelled as exact rationals `ℚ`, optional values as `Option`, and the calls
the program makes into the external `youtube_transcript_api` capability are
reified as explicit data (`ApiCall`, `SessionConfig`), so that theorems can
speak about which call is made and with which transport configuration.
-/

/-! ### Python string primitives used by the program -/

/-- The ASCII whitespace characters stripped by Python's `str.strip()`. -/
def isPyWs (c : Char) : Bool :=
  c = ' ' || c = '\t' || c = '\n' || c = '\r' || c = '\x0b' || c = '\x0c'

/-- Remove leading whitespace from a character list (front half of `str.strip()`). -/
def stripFrontCL : List Char → List Char
  | [] => []
  | c :: rest => if isPyWs c then stripFrontCL rest else c :: rest

/-- Python `str.strip()` on character lists: drop whitespace at both ends. -/
def stripCL (l : List Char) : List Char :=
  (stripFrontCL (stripFrontCL l).reverse).reverse

/-- Python `str.strip()`. -/
def pyStrip (s : String) : String :=
  ⟨stripCL s.data⟩

/-- Python `str.split(",")` on character lists: fields between commas, kept in
order, empty fields preserved. -/
def splitOnComma : List Char → List (List Char)
  | [] => [[]]
  | c :: rest =>
    if c = ',' then [] :: splitOnComma rest
    else
      match splitOnComma rest with
      | [] => [[c]]
      | f :: fs => (c :: f) :: fs

/-- Python `str.split(",")`. -/
def pySplitComma (s : String) : List String :=
  (splitOnComma s.data).map (fun l => ⟨l⟩)

/-- Python `sep.join(list)` (character-list level): empty list gives `[]`,
otherwise the pieces separated by `sep`. -/
def joinCharLists (sep : List Char) : List (List Char) → List Char
  | [] => []
  | [x] => x
  | x :: y :: xs => x ++ sep ++ joinCharLists sep (y :: xs)

/-- Python `sep.join(list)` on strings. -/
def joinSep (sep : String) : List String → String
  | [] => ""
  | [x] => x
  | x :: y :: xs => x ++ sep ++ joinSep sep (y :: xs)

/-- Does `pat` occur at the head of the list? -/
def matchesAt : List Char → List Char → Bool
  | [], _ => true
  | _ :: _, [] => false
  | a :: as, b :: bs => a = b && matchesAt as bs

/-- Does `pat` occur anywhere in the list? -/
def occursIn (pat : List Char) : List Char → Bool
  | [] => matchesAt pat []
  | b :: bs => matchesAt pat (b :: bs) || occursIn pat bs

/-- Substring test: does `pat` occur in `s`? -/
def strContainsB (s pat : String) : Bool :=
  occursIn pat.data s.data

/-! ### Rich markup rendering

The program logs through a `RichHandler` constructed with `markup=True`, so
square-bracket tags such as `[yellow]`…`[/yellow]` in a log message are
consumed as styling directives and do not appear in the rendered log text.
`renderMarkup` models that rendering for messages whose literal text holds no
stray brackets. -/

/-- State machine for rendering: `true` while inside a `[`…`]` tag. -/
def renderMarkupAux : Bool → List Char → List Char
  | _, [] => []
  | true, c :: rest =>
    if c = ']' then renderMarkupAux false rest else renderMarkupAux true rest
  | false, c :: rest =>
    if c = '[' then renderMarkupAux true rest else c :: renderMarkupAux false rest

/-- The log text shown to the user for a message holding rich markup tags. -/
def renderMarkup (s : String) : String :=
  ⟨renderMarkupAux false s.data⟩

/-! ### Python numeric formatting: `f"{x:.2f}"`

A Python float is an exact rational; `:.2f` rounds that rational to two
decimal places with ties going to the even hundredth, and prints the sign of
the value. -/

/-- Round a rational to the nearest integer, ties to even. -/
def roundHalfEven (q : ℚ) : ℤ :=
  let f := ⌊q⌋
  if q - f < 1 / 2 then f
  else if 1 / 2 < q - f then f + 1
  else if f % 2 = 0 then f else f + 1

/-- Print a natural number below 100 with two digits. -/
def pad2 (n : ℕ) : String :=
  if n < 10 then "0" ++ toString n else toString n

/-- Python `f"{q:.2f}"` on the exact rational value of the float. -/
def formatFixed2 (q : ℚ) : String :=
  let n : ℕ := (roundHalfEven (|q| * 100)).toNat
  let sign := if q < 0 then "-" else ""
  sign ++ toString (n / 100) ++ "." ++ pad2 (n % 100)

/-! ### The data model and the formatter (`format_transcript`) -/

/-- One caption entry: `{"start": float, "duration": float, "text": str}`. -/
structure CaptionEntry where
  start : ℚ
  text : String
  duration : ℚ := 0
deriving DecidableEq

/-- The line built for one entry: `f"[{item['start']:.2f}] {item['text']}"`. -/
def formatLine (e : CaptionEntry) : String :=
  "[" ++ formatFixed2 e.start ++ "] " ++ e.text

/-- `format_transcript`: the newline-join of the per-entry lines. -/
def format_transcript (items : List CaptionEntry) : String :=
  joinSep "\n" (items.map formatLine)

/-- A raw transcript item as a dictionary that may be missing the
`start`/`text` keys (duration is never read by the formatter). -/
structure RawEntry where
  start? : Option ℚ
  text? : Option String

/-- Python dictionary lookup: raises `KeyError` when the key is missing. -/
def getField {α : Type} (o : Option α) : Except String α :=
  match o with
  | some v => Except.ok v
  | none => Except.error "KeyError"

/-- Effectful line build: `item['start']` / `item['text']` may raise. -/
def formatLineE (e : RawEntry) : Except String String := do
  let s ← getField e.start?
  let t ← getField e.text?
  return "[" ++ formatFixed2 s ++ "] " ++ t

/-- The list comprehension inside `format_transcript`, left to right, first
missing key raising. -/
def collectLinesE : List RawEntry → Except String (List String)
  | [] => Except.ok []
  | e :: es => do
    let l ← formatLineE e
    let ls ← collectLinesE es
    return l :: ls

/-- `format_transcript` on raw dictionary items, with key errors tracked. -/
def format_transcriptE (es : List RawEntry) : Except String String :=
  (collectLinesE es).map (joinSep "\n")

/-! ### The fetcher (`fetch_transcript`)

`fetch_transcript` decides (a) whether to build an explicit `requests.Session`
and with which timeout/proxies attributes, and (b) which entry point of the
external capability to invoke.  Both decisions are reified as data. -/

/-- Truthiness of an optional Python string (`if proxy_uri:`). -/
def optStrTruthy : Option String → Bool
  | none => false
  | some s => !(s = "")

/-- The proxy dictionary `{"http": proxy_uri, "https": proxy_uri}`. -/
structure ProxyMap where
  http : String
  https : String
deriving DecidableEq

/-- The attributes set on the explicitly built `requests.Session`. -/
structure SessionConfig where
  timeout : Option ℚ
  proxies : Option ProxyMap
deriving DecidableEq

/-- Which entry point of the external capability is invoked. -/
inductive ApiCall where
  | fetchCall (videoId : String) (languages : List String)
  | getTranscriptCall (videoId : String)
deriving DecidableEq

/-- Everything observable about one `fetch_transcript` run: the explicit
client handed to `YouTubeTranscriptApi` (if any) and the call made. -/
structure FetchPlan where
  http_client : Option SessionConfig
  call : ApiCall
deriving DecidableEq

/-- Truthiness of the optional languages list (`if languages:`). -/
def optListTruthy : Option (List String) → Bool
  | some (_ :: _) => true
  | _ => false

/-- The `session.proxies` attribute set by `fetch_transcript`: the mapping
`{"http": proxy_uri, "https": proxy_uri}` when `proxy_uri` is truthy,
untouched (no mapping) otherwise. -/
def proxiesOf : Option String → Option ProxyMap
  | some u => if u = "" then none else some ⟨u, u⟩
  | none => none

/-- `fetch_transcript(video_id, languages, proxy_uri, timeout)`: builds a
session exactly when `timeout is not None or proxy_uri` is truthy, setting
`session.timeout` when a timeout is given and `session.proxies` when the
proxy URI is truthy; then calls `fetch` with the languages when the list is
truthy and `get_transcript` otherwise. -/
def fetch_transcript (video_id : String) (languages : Option (List String))
    (proxy_uri : Option String) (timeout : Option ℚ) : FetchPlan :=
  let session : Option SessionConfig :=
    if timeout.isSome || optStrTruthy proxy_uri then
      some { timeout := timeout
             proxies := proxiesOf proxy_uri }
    else none
  { http_client := session
    call :=
      match languages with
      | some (l :: ls) => ApiCall.fetchCall video_id (l :: ls)
      | _ => ApiCall.getTranscriptCall video_id }

/-! ### Command-line parsing fragments -/

/-- Python `int(s)`: strip whitespace, optional sign, then decimal digits
with single underscores allowed between digits.  `None` models the
`ValueError` that argparse turns into a parse failure. -/
def digitVal (c : Char) : Option ℕ :=
  if '0' ≤ c ∧ c ≤ '9' then some (c.toNat - '0'.toNat) else none

/-- Digits after the first one, underscores allowed only between digits. -/
def parseDigitsRest : List Char → ℕ → Option ℕ
  | [], acc => some acc
  | c :: rest, acc =>
    match digitVal c with
    | some d => parseDigitsRest rest (acc * 10 + d)
    | none =>
      if c = '_' ∧ (rest.head?.bind digitVal).isSome then parseDigitsRest rest acc
      else none

/-- A digit run must start with a digit. -/
def parseDigitsStart : List Char → Option ℕ
  | [] => none
  | c :: rest =>
    match digitVal c with
    | some d => parseDigitsRest rest d
    | none => none

/-- Python `int(s)` for a decimal string. -/
def pyParseInt (s : String) : Option ℤ :=
  match stripCL s.data with
  | [] => none
  | c :: rest =>
    if c = '+' then (parseDigitsStart rest).map Int.ofNat
    else if c = '-' then (parseDigitsStart rest).map (fun n => -(n : ℤ))
    else (parseDigitsStart (c :: rest)).map Int.ofNat

/-- The conversion argparse applies to the value of `--timeout`
(`type=int`); `none` is a command-line error (exit code 2). -/
def timeoutOptionParse (s : String) : Option ℤ :=
  pyParseInt s

/-- `args.languages` → `languages_list`: split on commas and strip each code
when the string is truthy, otherwise `None`. -/
def parseLanguagesArg : Option String → Option (List String)
  | none => none
  | some s => if s = "" then none else some ((pySplitComma s).map pyStrip)

/-- The three option occurrences that decide the log level. -/
inductive LogOpt where
  | verbose
  | debug
  | levelOpt (s : String)

/-- The two argparse destinations feeding the log-level decision. -/
structure LogArgsState where
  log_level : String
  log_level_flag : Option String

/-- One argparse action: `-v`/`-d` both store into `log_level_flag`
(`store_const`), `--log-level` stores into `log_level`. -/
def applyLogOpt (st : LogArgsState) : LogOpt → LogArgsState
  | LogOpt.verbose => { st with log_level_flag := some "INFO" }
  | LogOpt.debug => { st with log_level_flag := some "DEBUG" }
  | LogOpt.levelOpt s => { st with log_level := s }

/-- argparse processes option occurrences left to right, starting from the
defaults `log_level="WARNING"`, `log_level_flag=None`. -/
def parseLogOpts (opts : List LogOpt) : LogArgsState :=
  opts.foldl applyLogOpt ⟨"WARNING", none⟩

/-- `log_level_flag if log_level_flag else log_level`. -/
def effectiveLogLevel (st : LogArgsState) : String :=
  match st.log_level_flag with
  | some s => if s = "" then st.log_level else s
  | none => st.log_level

/-! ### The top-level error reporter (`main`) -/

/-- The outcome of the fetch step: either the transcript items or one of the
exception categories distinguished by the handlers in `main`. -/
inductive FetchOutcome where
  | ok (items : List CaptionEntry)
  | videoUnavailable
  | transcriptsDisabled
  | noTranscriptFound (details : String)
  | networkTimeout (details : String)
  | networkError (details : String)
  | requestBlocked
  | unexpected (details : String)

/-- Message logged for `VideoUnavailable`. -/
def videoUnavailableMsg (v : String) : String :=
  "Video '" ++ v ++ "' is unavailable. " ++
    "This might mean it has been deleted or set to private. " ++
    "Please check the video ID and its public accessibility."

/-- Message logged for `TranscriptsDisabled`. -/
def transcriptsDisabledMsg (v : String) : String :=
  "Transcripts are disabled for video '" ++ v ++ "'. " ++
    "Subtitles may not be available or were disabled by the uploader."

/-- The base sentence of the `NoTranscriptFound` message. -/
def noTranscriptBase (v : String) : String :=
  "Could not find a transcript for video '" ++ v ++ "' " ++
    "in the requested language(s)."

/-- Message logged for `NoTranscriptFound`: when `languages_list` is truthy
the tried languages are appended inside `[yellow]` markup, otherwise only the
details are appended. -/
def noTranscriptFoundLog (v : String) (langs : Option (List String))
    (details : String) : String :=
  if optListTruthy langs then
    noTranscriptBase v ++ " Tried languages: [yellow]" ++
      joinSep ", " (langs.getD []) ++ "[/yellow]." ++
      " Details: [dim]" ++ details ++ "[/dim]"
  else
    noTranscriptBase v ++ " Details: [dim]" ++ details ++ "[/dim]"

/-- Message logged for `Timeout` / `RequestException`. -/
def networkIssueMsg (details : String) : String :=
  "A network issue occurred (e.g., timeout or connection problem). " ++
    "Please check your internet connection and try again." ++
    " Details: [dim]" ++ details ++ "[/dim]"

/-- Message logged for `RequestBlocked`. -/
def requestBlockedMsg : String :=
  "Your request was blocked by YouTube. " ++
    "This may be due to too many requests or an IP block. " ++
    "Please try again later or use a proxy."

/-- Message logged for any other exception. -/
def unexpectedMsg (details : String) : String :=
  "An unexpected error occurred. Details: " ++ details

/-- Message logged when writing the output file raises `IOError`. -/
def writeErrorMsg (path details : String) : String :=
  "Failed to write transcript to file " ++ path ++ ": " ++ details

/-- The observable result of one `main` run: the process exit code, the
error-level log messages, what was printed to stdout and what was written to
a file. -/
structure MainResult where
  exitCode : ℕ
  errorLogs : List String
  stdoutOut : Option String
  fileWritten : Option (String × String)

/-- The part of `main` from the fetch call onward: on success format the
items and write them to the output file (when `args.output` is truthy,
`write_error` modelling a possible `IOError`) or print them; on each failure
category log its message and exit with code 1. -/
def mainRun (video_id : String) (languages_list : Option (List String))
    (output : Option String) (write_error : Option String)
    (outcome : FetchOutcome) : MainResult :=
  match outcome with
  | FetchOutcome.ok items =>
    let formatted := format_transcript items
    if optStrTruthy output then
      let path := output.getD ""
      match write_error with
      | none => ⟨0, [], none, some (path, formatted)⟩
      | some e => ⟨1, [writeErrorMsg path e], none, none⟩
    else
      ⟨0, [], some formatted, none⟩
  | FetchOutcome.videoUnavailable => ⟨1, [videoUnavailableMsg video_id], none, none⟩
  | FetchOutcome.transcriptsDisabled =>
    ⟨1, [transcriptsDisabledMsg video_id], none, none⟩
  | FetchOutcome.noTranscriptFound d =>
    ⟨1, [noTranscriptFoundLog video_id languages_list d], none, none⟩
  | FetchOutcome.networkTimeout d => ⟨1, [networkIssueMsg d], none, none⟩
  | FetchOutcome.networkError d => ⟨1, [networkIssueMsg d], none, none⟩
  | FetchOutcome.requestBlocked => ⟨1, [requestBlockedMsg], none, none⟩
  | FetchOutcome.unexpected d => ⟨1, [unexpectedMsg d], none, none⟩

/-! ### Helper lemmas -/

/-- Digit characters are not stripped by `str.strip()`. -/
theorem isPyWs_of_digit {c : Char} (h : '0' ≤ c ∧ c ≤ '9') : isPyWs c = false := by
  obtain ⟨h1, h2⟩ := h
  unfold isPyWs
  have b1 : '0' ≤ c := h1
  simp only [Bool.or_eq_false_iff, decide_eq_false_iff_not]
  refine ⟨⟨⟨⟨⟨?_, ?_⟩, ?_⟩, ?_⟩, ?_⟩, ?_⟩ <;>
    · intro he
      subst he
      revert b1
      decide

/-- `stripFrontCL` leaves a list starting with no whitespace unchanged. -/
theorem stripFrontCL_of_no_ws {l : List Char} (h : ∀ c ∈ l, isPyWs c = false) :
    stripFrontCL l = l := by
  cases l with
  | nil => rfl
  | cons c rest =>
    unfold stripFrontCL
    rw [h c (by simp)]
    simp

/-- `str.strip()` leaves a whitespace-free list unchanged. -/
theorem stripCL_of_no_ws {l : List Char} (h : ∀ c ∈ l, isPyWs c = false) :
    stripCL l = l := by
  unfold stripCL
  rw [stripFrontCL_of_no_ws h]
  rw [stripFrontCL_of_no_ws (by intro c hc; exact h c (List.mem_reverse.mp hc))]
  exact List.reverse_reverse l

/-- Value of a run of decimal digits, most significant first. -/
def digitsToNat (l : List Char) : ℕ :=
  l.foldl (fun a c => a * 10 + (c.toNat - '0'.toNat)) 0

/-- Is every character a decimal digit? -/
def allDigits (l : List Char) : Bool :=
  l.all (fun c => decide ('0' ≤ c ∧ c ≤ '9'))

/-- A digit character is parsed by `digitVal` into its value. -/
theorem digitVal_of_digit {c : Char} (h : '0' ≤ c ∧ c ≤ '9') :
    digitVal c = some (c.toNat - '0'.toNat) := by
  unfold digitVal
  exact if_pos h

/-- On an all-digit tail, `parseDigitsRest` folds the digits onto the
accumulator. -/
theorem parseDigitsRest_all_digits :
    ∀ (l : List Char) (acc : ℕ), allDigits l = true →
      parseDigitsRest l acc =
        some (l.foldl (fun a c => a * 10 + (c.toNat - '0'.toNat)) acc) := by
  intro l
  induction l with
  | nil => intro acc _; rfl
  | cons c rest ih =>
    intro acc h
    rw [allDigits, List.all_cons, Bool.and_eq_true] at h
    obtain ⟨hc, hrest⟩ := h
    have hc' : '0' ≤ c ∧ c ≤ '9' := of_decide_eq_true hc
    rw [parseDigitsRest.eq_def]
    simp only [digitVal_of_digit hc', List.foldl_cons]
    exact ih (acc * 10 + (c.toNat - '0'.toNat)) hrest

/-- On a non-empty all-digit run, `parseDigitsStart` returns its value. -/
theorem parseDigitsStart_all_digits (c : Char) (rest : List Char)
    (h : allDigits (c :: rest) = true) :
    parseDigitsStart (c :: rest) = some (digitsToNat (c :: rest)) := by
  rw [allDigits, List.all_cons, Bool.and_eq_true] at h
  obtain ⟨hc, hrest⟩ := h
  have hc' : '0' ≤ c ∧ c ≤ '9' := of_decide_eq_true hc
  rw [parseDigitsStart, digitVal_of_digit hc']
  show parseDigitsRest rest (c.toNat - '0'.toNat) = some (digitsToNat (c :: rest))
  rw [parseDigitsRest_all_digits rest (c.toNat - '0'.toNat) hrest]
  unfold digitsToNat
  simp

/-! ### C2: the formatter output -/

/-- C2: `format_transcript` is the newline-join of the lines
`"[{start:.2f}] {text}"` in the original order, with no separator before the
first line and none after the last: the empty sequence gives `""`, a
singleton gives exactly its line, the entry `start=0.0, text="hello"` gives
`[0.00] hello`, and each additional entry appends `"\n"` plus its line. -/
theorem format_transcript_join_spec :
    format_transcript [] = "" ∧
    format_transcript [⟨0, "hello", 0⟩] = "[0.00] hello" ∧
    (∀ e : CaptionEntry, format_transcript [e] = formatLine e) ∧
    (∀ (e e2 : CaptionEntry) (es : List CaptionEntry),
      format_transcript (e :: e2 :: es) =
        formatLine e ++ "\n" ++ format_transcript (e2 :: es)) := by
  refine ⟨rfl, ?_, fun e => rfl, fun e e2 es => rfl⟩
  show formatLine ⟨0, "hello", 0⟩ = "[0.00] hello"
  unfold formatLine formatFixed2 roundHalfEven
  norm_num
  rfl

/-! ### C3: language dispatch in `fetch_transcript` -/

/-- C3: with a non-empty languages list `fetch_transcript` invokes the
languages-taking entry point `fetch` with exactly that list; with `None` it
invokes the default path `get_transcript`. -/
theorem fetch_transcript_language_dispatch (v : String) (p : Option String)
    (t : Option ℚ) (langs : List String) (h : langs ≠ []) :
    (fetch_transcript v (some langs) p t).call = ApiCall.fetchCall v langs ∧
    (fetch_transcript v none p t).call = ApiCall.getTranscriptCall v := by
  cases langs with
  | nil => exact absurd rfl h
  | cons a as => exact ⟨rfl, rfl⟩

/-- Witness for C3 at `languages=["en","fr"]` and `languages=None`. -/
theorem fetch_transcript_language_dispatch_witness :
    (fetch_transcript "dQw4w9WgXcQ" (some ["en", "fr"]) none none).call =
      ApiCall.fetchCall "dQw4w9WgXcQ" ["en", "fr"] ∧
    (fetch_transcript "dQw4w9WgXcQ" none none none).call =
      ApiCall.getTranscriptCall "dQw4w9WgXcQ" :=
  fetch_transcript_language_dispatch "dQw4w9WgXcQ" none none ["en", "fr"]
    (by decide)

/-! ### C4: transport configuration in `fetch_transcript` -/

/-- C4: when a timeout is given or the proxy URI is truthy, an explicit
client is built and handed over, carrying the timeout when given and the
proxy mapping `http/https ↦ uri` when the proxy is truthy; when neither is
given no explicit client is passed; with `timeout=5` and no proxy the client
has timeout `5` and no proxy mapping. -/
theorem fetch_transcript_client_config (v : String) (l : Option (List String))
    (p : Option String) (t : Option ℚ) :
    ((t.isSome || optStrTruthy p) = true →
      ∃ sc : SessionConfig,
        (fetch_transcript v l p t).http_client = some sc ∧
        sc.timeout = t ∧
        (∀ u, p = some u → u ≠ "" → sc.proxies = some ⟨u, u⟩) ∧
        (optStrTruthy p = false → sc.proxies = none)) ∧
    ((t.isSome || optStrTruthy p) = false →
      (fetch_transcript v l p t).http_client = none) ∧
    (fetch_transcript v l none (some 5)).http_client =
      some { timeout := some 5, proxies := none } := by
  refine ⟨?_, ?_, rfl⟩
  · intro h
    refine ⟨⟨t, proxiesOf p⟩, ?_, rfl, ?_, ?_⟩
    · unfold fetch_transcript
      simp only [h, if_true]
    · intro u hu hne
      subst hu
      unfold proxiesOf
      simp only [if_neg hne]
    · intro hp
      cases p with
      | none => rfl
      | some u =>
        simp only [optStrTruthy, Bool.not_eq_false', decide_eq_true_eq] at hp
        unfold proxiesOf
        simp only [if_pos hp]
  · intro h
    unfold fetch_transcript
    simp only [h, Bool.false_eq_true, if_false]

/-- Witness for C4: proxy `http://localhost:8080` alone builds a client with
that proxy mapping; nothing given passes no client. -/
theorem fetch_transcript_client_config_witness :
    (∃ sc : SessionConfig,
      (fetch_transcript "abc" none (some "http://localhost:8080") none).http_client =
        some sc ∧
      sc.timeout = none ∧
      (∀ u, (some "http://localhost:8080" : Option String) = some u → u ≠ "" →
        sc.proxies = some ⟨u, u⟩) ∧
      (optStrTruthy (some "http://localhost:8080") = false → sc.proxies = none)) ∧
    (fetch_transcript "abc" none none none).http_client = none :=
  ⟨(fetch_transcript_client_config "abc" none (some "http://localhost:8080") none).1
      (by decide),
   (fetch_transcript_client_config "abc" none none none).2.1 (by decide)⟩

/-! ### C10: empty proxy URI behaves like no proxy -/

/-- C10: `proxy_uri=""` with no timeout is indistinguishable from
`proxy_uri=None`: the presence test is truthiness, so no client is built and
the default transport is used. -/
theorem fetch_transcript_empty_proxy_like_none (v : String)
    (l : Option (List String)) :
    fetch_transcript v l (some "") none = fetch_transcript v l none none ∧
    (fetch_transcript v l (some "") none).http_client = none := by
  exact ⟨rfl, rfl⟩

/-! ### C6: the `-d` flag and the effective log level -/

/-- C6 (divergence): `-v` and `-d` share the argparse destination
`log_level_flag` with `store_const`, and argparse assigns left to right, so
the last of `-v`/`-d` wins: on the command line `-d -v` the effective level
is `INFO`, not `DEBUG`, contradicting the help text "Overrides -v and
--log-level"; `-d` does override `--log-level` in either order, and
overrides a `-v` that comes before it. -/
theorem debug_flag_not_always_override :
    effectiveLogLevel (parseLogOpts [LogOpt.debug, LogOpt.verbose]) = "INFO" ∧
    effectiveLogLevel (parseLogOpts [LogOpt.verbose, LogOpt.debug]) = "DEBUG" ∧
    effectiveLogLevel (parseLogOpts [LogOpt.levelOpt "ERROR", LogOpt.debug]) =
      "DEBUG" ∧
    effectiveLogLevel (parseLogOpts [LogOpt.debug, LogOpt.levelOpt "ERROR"]) =
      "DEBUG" ∧
    effectiveLogLevel (parseLogOpts [LogOpt.debug]) = "DEBUG" :=
  ⟨rfl, rfl, rfl, rfl, rfl⟩

/-! ### C7: the type of the `--timeout` value -/

/-- C7 (counterexample): `--timeout` converts its value with `int`, so the
fractional value `"2.5"` is rejected (a command-line error), not parsed as
2.5 seconds. -/
theorem timeout_fractional_rejected : timeoutOptionParse "2.5" = none :=
  rfl

/-- C7 (amended): `--timeout` accepts integer values only: every all-digit
value string parses to that integer number of seconds, while fractional
values such as `"2.5"` are rejected at argument parsing. -/
theorem timeout_integer_only (c : Char) (rest : List Char)
    (h : allDigits (c :: rest) = true) :
    timeoutOptionParse ⟨c :: rest⟩ =
      some (Int.ofNat (digitsToNat (c :: rest))) ∧
    timeoutOptionParse "2.5" = none := by
  refine ⟨?_, rfl⟩
  have hall : ∀ x ∈ c :: rest, '0' ≤ x ∧ x ≤ '9' := by
    intro x hx
    rw [allDigits] at h
    exact of_decide_eq_true (List.all_eq_true.mp h x hx)
  have hnw : ∀ x ∈ c :: rest, isPyWs x = false := fun x hx =>
    isPyWs_of_digit (hall x hx)
  have hc' : '0' ≤ c ∧ c ≤ '9' := hall c (by simp)
  have hcp : ¬ c = '+' := by
    intro he
    subst he
    exact absurd hc'.1 (by decide)
  have hcm : ¬ c = '-' := by
    intro he
    subst he
    exact absurd hc'.1 (by decide)
  unfold timeoutOptionParse pyParseInt
  rw [show (String.mk (c :: rest)).data = c :: rest from rfl]
  rw [stripCL_of_no_ws hnw]
  simp only [if_neg hcp, if_neg hcm]
  rw [parseDigitsStart_all_digits c rest h]
  rfl

/-- Witness for C7's amended claim at the value `"25"`. -/
theorem timeout_integer_only_witness :
    allDigits ('2' :: ['5']) = true ∧
    timeoutOptionParse ⟨'2' :: ['5']⟩ =
      some (Int.ofNat (digitsToNat ('2' :: ['5']))) :=
  ⟨by decide, (timeout_integer_only '2' ['5'] (by decide)).1⟩

/-! ### C8: comma splitting of the `-l` (`--languages`) value -/

/-- `str.split(",")` never yields an empty list of fields. -/
theorem splitOnComma_ne_nil : ∀ l : List Char, splitOnComma l ≠ []
  | [] => by simp [splitOnComma]
  | c :: rest => by
    unfold splitOnComma
    by_cases hc : c = ','
    · simp [hc]
    · rw [if_neg hc]
      cases h : splitOnComma rest with
      | nil => simp
      | cons f fs => simp

/-- Joining the split fields with `","` restores the original list. -/
theorem join_splitOnComma (l : List Char) :
    joinCharLists [','] (splitOnComma l) = l := by
  induction l with
  | nil => rfl
  | cons c rest ih =>
    unfold splitOnComma
    by_cases hc : c = ','
    · rw [if_pos hc]
      subst hc
      cases h : splitOnComma rest with
      | nil => exact absurd h (splitOnComma_ne_nil rest)
      | cons f fs =>
        rw [h] at ih
        show [] ++ [','] ++ joinCharLists [','] (f :: fs) = ',' :: rest
        rw [ih]
        simp
    · rw [if_neg hc]
      cases h : splitOnComma rest with
      | nil => exact absurd h (splitOnComma_ne_nil rest)
      | cons f fs =>
        rw [h] at ih
        cases fs with
        | nil =>
          show c :: f = c :: rest
          show c :: f = c :: rest
          have : f = rest := ih
          rw [this]
        | cons f2 fs2 =>
          show (c :: f) ++ [','] ++ joinCharLists [','] (f2 :: fs2) = c :: rest
          rw [← ih]
          simp [joinCharLists]

/-- No field produced by `str.split(",")` holds a comma. -/
theorem splitOnComma_no_comma (l : List Char) :
    ∀ f ∈ splitOnComma l, ∀ c ∈ f, c ≠ ',' := by
  induction l with
  | nil =>
    intro f hf c hc
    simp [splitOnComma] at hf
    subst hf
    simp at hc
  | cons a rest ih =>
    intro f hf c hc
    unfold splitOnComma at hf
    by_cases ha : a = ','
    · rw [if_pos ha] at hf
      rcases List.mem_cons.mp hf with h1 | h2
      · subst h1
        simp at hc
      · exact ih f h2 c hc
    · rw [if_neg ha] at hf
      cases h : splitOnComma rest with
      | nil => exact absurd h (splitOnComma_ne_nil rest)
      | cons g gs =>
        rw [h] at hf
        rcases List.mem_cons.mp hf with h1 | h2
        · subst h1
          rcases List.mem_cons.mp hc with h3 | h4
          · subst h3
            exact ha
          · exact ih g (by rw [h]; simp) c h4
        · exact ih f (by rw [h]; simp [h2]) c hc

/-- `joinSep` agrees with the character-list join. -/
theorem joinSep_data (sep : String) :
    ∀ L : List String,
      (joinSep sep L).data = joinCharLists sep.data (L.map String.data)
  | [] => rfl
  | [x] => rfl
  | x :: y :: xs => by
    show (x ++ sep ++ joinSep sep (y :: xs)).data = _
    rw [String.data_append, String.data_append]
    rw [joinSep_data sep (y :: xs)]
    rfl

/-- Joining the string fields of `pySplitComma` with `","` restores `s`. -/
theorem joinSep_pySplitComma (s : String) :
    joinSep "," (pySplitComma s) = s := by
  have h : (joinSep "," (pySplitComma s)).data = s.data := by
    rw [joinSep_data]
    unfold pySplitComma
    rw [List.map_map]
    have hid : (String.data ∘ fun l => (⟨l⟩ : String)) = id := rfl
    rw [hid, List.map_id]
    exact join_splitOnComma s.data
  cases s with
  | mk d =>
    cases hj : joinSep "," (pySplitComma ⟨d⟩) with
    | mk d2 =>
      rw [hj] at h
      exact congrArg String.mk h

/-- The head of a front-stripped list is not whitespace. -/
theorem stripFrontCL_head? {l : List Char} {c : Char}
    (h : (stripFrontCL l).head? = some c) : isPyWs c = false := by
  induction l with
  | nil => simp [stripFrontCL] at h
  | cons a rest ih =>
    unfold stripFrontCL at h
    by_cases ha : isPyWs a
    · rw [if_pos ha] at h
      exact ih h
    · rw [if_neg ha] at h
      simp only [List.head?_cons, Option.some.injEq] at h
      subst h
      exact Bool.not_eq_true _ ▸ (by simpa using ha)

/-- A list is some whitespace followed by its front-strip. -/
theorem stripFrontCL_decomp (l : List Char) : ∃ w, l = w ++ stripFrontCL l := by
  induction l with
  | nil => exact ⟨[], rfl⟩
  | cons a rest ih =>
    by_cases ha : isPyWs a
    · obtain ⟨w, hw⟩ := ih
      refine ⟨a :: w, ?_⟩
      show a :: rest = (a :: w) ++ stripFrontCL (a :: rest)
      unfold stripFrontCL
      rw [if_pos ha]
      rw [List.cons_append]
      exact congrArg (a :: ·) hw
    · refine ⟨[], ?_⟩
      unfold stripFrontCL
      rw [if_neg ha]
      rfl

/-- The first character of `str.strip()` is not whitespace. -/
theorem stripCL_head? {l : List Char} {c : Char}
    (h : (stripCL l).head? = some c) : isPyWs c = false := by
  unfold stripCL at h
  rw [List.head?_reverse] at h
  obtain ⟨w, hw⟩ := stripFrontCL_decomp (stripFrontCL l).reverse
  have hne : stripFrontCL (stripFrontCL l).reverse ≠ [] := by
    intro h0
    rw [h0] at h
    simp at h
  have h2 : ((stripFrontCL l).reverse).getLast? = some c := by
    rw [hw, List.getLast?_append_of_ne_nil w hne]
    exact h
  rw [List.getLast?_reverse] at h2
  exact stripFrontCL_head? h2

/-- The last character of `str.strip()` is not whitespace. -/
theorem stripCL_getLast? {l : List Char} {c : Char}
    (h : (stripCL l).getLast? = some c) : isPyWs c = false := by
  unfold stripCL at h
  rw [List.getLast?_reverse] at h
  exact stripFrontCL_head? h

/-- C8: for a truthy `-l` (`--languages`) value the program's languages list is
obtained by splitting the value on commas into fields whose comma-join
restores the value (so order and multiplicity are preserved and no field
holds a comma), stripping surrounding whitespace from each field (the
resulting codes start and end with non-whitespace). -/
theorem languages_csv_split (s : String) (h : s ≠ "") :
    parseLanguagesArg (some s) = some ((pySplitComma s).map pyStrip) ∧
    joinSep "," (pySplitComma s) = s ∧
    (∀ f ∈ pySplitComma s, ∀ c ∈ f.data, c ≠ ',') ∧
    (∀ g ∈ (pySplitComma s).map pyStrip,
      (∀ c, g.data.head? = some c → isPyWs c = false) ∧
      (∀ c, g.data.getLast? = some c → isPyWs c = false)) := by
  refine ⟨?_, joinSep_pySplitComma s, ?_, ?_⟩
  · show (if s = "" then none else some ((pySplitComma s).map pyStrip)) =
      some ((pySplitComma s).map pyStrip)
    rw [if_neg h]
  · intro f hf c hc
    unfold pySplitComma at hf
    obtain ⟨fl, hfl, rfl⟩ := List.mem_map.mp hf
    exact splitOnComma_no_comma s.data fl hfl c hc
  · intro g hg
    obtain ⟨f, hf, rfl⟩ := List.mem_map.mp hg
    exact ⟨fun c hc => stripCL_head? hc, fun c hc => stripCL_getLast? hc⟩

/-- Witness for C8 at the value `"en, fa ,de"`. -/
theorem languages_csv_split_witness :
    ("en, fa ,de" : String) ≠ "" ∧
    parseLanguagesArg (some "en, fa ,de") =
      some ((pySplitComma "en, fa ,de").map pyStrip) ∧
    (pySplitComma "en, fa ,de").map pyStrip = ["en", "fa", "de"] :=
  ⟨by decide, (languages_csv_split "en, fa ,de" (by decide)).1, by decide⟩

/-! ### C9: totality of the formatter under the two-field precondition -/

/-- When every entry has both keys, the comprehension collects exactly the
per-entry lines. -/
theorem collectLinesE_ok (es : List RawEntry)
    (h : ∀ e ∈ es, e.start? ≠ none ∧ e.text? ≠ none) :
    collectLinesE es =
      Except.ok (es.map
        (fun e => formatLine ⟨e.start?.getD 0, e.text?.getD "", 0⟩)) := by
  induction es with
  | nil => rfl
  | cons e rest ih =>
    obtain ⟨hs, ht⟩ := h e (by simp)
    obtain ⟨sv, hsv⟩ := Option.ne_none_iff_exists'.mp hs
    obtain ⟨tv, htv⟩ := Option.ne_none_iff_exists'.mp ht
    have hrest := ih (fun x hx => h x (by simp [hx]))
    simp only [collectLinesE, formatLineE, getField, hsv, htv, hrest,
      List.map_cons, bind, Except.bind, formatLine, hsv, Option.getD_some]
    rfl

/-- C9: under the precondition that every entry carries both a `start` and a
`text` field, `format_transcript` raises no error and is deterministic: on
such input the effect-tracking embedding returns `ok` with exactly the value
of the pure formatter. -/
theorem format_transcriptE_total (es : List RawEntry)
    (h : ∀ e ∈ es, e.start? ≠ none ∧ e.text? ≠ none) :
    format_transcriptE es =
      Except.ok (format_transcript
        (es.map (fun e => ⟨e.start?.getD 0, e.text?.getD "", 0⟩))) := by
  unfold format_transcriptE format_transcript
  rw [collectLinesE_ok es h]
  simp only [Except.map, List.map_map]
  congr 1

/-- Witness for C9 at a one-entry transcript with both fields present. -/
theorem format_transcriptE_total_witness :
    (∀ e ∈ [RawEntry.mk (some 0) (some "hello")],
      e.start? ≠ none ∧ e.text? ≠ none) ∧
    format_transcriptE [RawEntry.mk (some 0) (some "hello")] =
      Except.ok (format_transcript
        ([RawEntry.mk (some 0) (some "hello")].map
          (fun e => ⟨e.start?.getD 0, e.text?.getD "", 0⟩))) :=
  ⟨by simp, format_transcriptE_total [RawEntry.mk (some 0) (some "hello")]
    (by simp)⟩

/-! ### C1: exit codes and the `VideoUnavailable` message -/

/-- C1: every fetch failure category logs a message and exits with code 1; a
successful fetch (and successful write) produces output and exit code 0; the
`VideoUnavailable` message holds the word `unavailable` and the video id. -/
theorem main_error_reporting (v : String) (langs : Option (List String))
    (out : Option String) (werr : Option String) (oc : FetchOutcome) :
    ((∀ items, oc ≠ FetchOutcome.ok items) →
      (mainRun v langs out werr oc).exitCode = 1 ∧
      (mainRun v langs out werr oc).errorLogs ≠ []) ∧
    (∀ items, oc = FetchOutcome.ok items → werr = none →
      (mainRun v langs out werr oc).exitCode = 0 ∧
      ((mainRun v langs out werr oc).stdoutOut ≠ none ∨
        (mainRun v langs out werr oc).fileWritten ≠ none)) ∧
    (oc = FetchOutcome.videoUnavailable →
      ∃ msg, (mainRun v langs out werr oc).errorLogs = [msg] ∧
        (∃ a b, msg = a ++ v ++ b) ∧
        (∃ a b, msg = a ++ "unavailable" ++ b)) := by
  refine ⟨?_, ?_, ?_⟩
  · intro hok
    cases oc with
    | ok items => exact absurd rfl (hok items)
    | videoUnavailable => exact ⟨rfl, by simp [mainRun]⟩
    | transcriptsDisabled => exact ⟨rfl, by simp [mainRun]⟩
    | noTranscriptFound d => exact ⟨rfl, by simp [mainRun]⟩
    | networkTimeout d => exact ⟨rfl, by simp [mainRun]⟩
    | networkError d => exact ⟨rfl, by simp [mainRun]⟩
    | requestBlocked => exact ⟨rfl, by simp [mainRun]⟩
    | unexpected d => exact ⟨rfl, by simp [mainRun]⟩
  · intro items hoc hwerr
    subst hoc
    subst hwerr
    cases hout : optStrTruthy out with
    | true => exact ⟨by simp [mainRun, hout], Or.inr (by simp [mainRun, hout])⟩
    | false => exact ⟨by simp [mainRun, hout], Or.inl (by simp [mainRun, hout])⟩
  · intro hoc
    subst hoc
    refine ⟨videoUnavailableMsg v, rfl, ?_, ?_⟩
    · refine ⟨"Video '", "' is unavailable. This might mean it has been " ++
        "deleted or set to private. Please check the video ID and its " ++
        "public accessibility.", ?_⟩
      unfold videoUnavailableMsg
      simp only [String.append_assoc]
      rfl
    · refine ⟨"Video '" ++ v ++ "' is ", ". This might mean it has been " ++
        "deleted or set to private. Please check the video ID and its " ++
        "public accessibility.", ?_⟩
      unfold videoUnavailableMsg
      simp only [String.append_assoc]
      rfl

/-- Witness for C1: `VideoUnavailable` for video `abc` exits 1 with a
message naming the id and "unavailable"; a successful empty fetch to stdout
exits 0 with output. -/
theorem main_error_reporting_witness :
    ((mainRun "abc" none none none FetchOutcome.videoUnavailable).exitCode = 1 ∧
      (mainRun "abc" none none none FetchOutcome.videoUnavailable).errorLogs ≠ []) ∧
    ((mainRun "abc" none none none (FetchOutcome.ok [])).exitCode = 0 ∧
      ((mainRun "abc" none none none (FetchOutcome.ok [])).stdoutOut ≠ none ∨
        (mainRun "abc" none none none (FetchOutcome.ok [])).fileWritten ≠ none)) ∧
    (∃ msg,
      (mainRun "abc" none none none FetchOutcome.videoUnavailable).errorLogs =
        [msg] ∧
      (∃ a b, msg = a ++ "abc" ++ b) ∧
      (∃ a b, msg = a ++ "unavailable" ++ b)) :=
  ⟨(main_error_reporting "abc" none none none FetchOutcome.videoUnavailable).1
      (fun _ h => FetchOutcome.noConfusion h),
   (main_error_reporting "abc" none none none (FetchOutcome.ok [])).2.1 [] rfl rfl,
   (main_error_reporting "abc" none none none FetchOutcome.videoUnavailable).2.2
      rfl⟩

/-! ### C5: the tried-languages detail of `NoTranscriptFound` -/

/-- Rendering copies characters while no `[` starts a tag. -/
theorem renderAux_copy (a : List Char) (rest : List Char)
    (h : ∀ c ∈ a, c ≠ '[') :
    renderMarkupAux false (a ++ rest) = a ++ renderMarkupAux false rest := by
  induction a with
  | nil => rfl
  | cons c cs ih =>
    have hc : c ≠ '[' := h c (by simp)
    show renderMarkupAux false (c :: (cs ++ rest)) =
      c :: (cs ++ renderMarkupAux false rest)
    simp only [renderMarkupAux, if_neg hc]
    exact congrArg (c :: ·) (ih (fun x hx => h x (by simp [hx])))

/-- Rendering consumes a tag body up to its closing `]`. -/
theorem renderAux_skip (t : List Char) (rest : List Char)
    (h : ∀ c ∈ t, c ≠ ']') :
    renderMarkupAux true (t ++ ']' :: rest) = renderMarkupAux false rest := by
  induction t with
  | nil =>
    show renderMarkupAux true (']' :: rest) = renderMarkupAux false rest
    simp [renderMarkupAux]
  | cons c cs ih =>
    have hc : c ≠ ']' := h c (by simp)
    show renderMarkupAux true (c :: (cs ++ ']' :: rest)) = _
    simp only [renderMarkupAux, if_neg hc]
    exact ih (fun x hx => h x (by simp [hx]))

/-- An opening `[` enters tag state. -/
theorem renderAux_lbrack (rest : List Char) :
    renderMarkupAux false ('[' :: rest) = renderMarkupAux true rest := by
  simp [renderMarkupAux]

/-- The comma-join of bracket-free codes is bracket-free. -/
theorem joinSep_comma_no_bracket (L : List String)
    (h : ∀ s ∈ L, ∀ c ∈ s.data, c ≠ '[' ∧ c ≠ ']') :
    ∀ c ∈ (joinSep ", " L).data, c ≠ '[' ∧ c ≠ ']' := by
  induction L with
  | nil =>
    intro c hc
    simp [joinSep] at hc
  | cons x xs ih =>
    cases xs with
    | nil =>
      intro c hc
      exact h x (by simp) c hc
    | cons y ys =>
      intro c hc
      have hdata : (joinSep ", " (x :: y :: ys)).data =
          x.data ++ ", ".data ++ (joinSep ", " (y :: ys)).data := by
        show (x ++ ", " ++ joinSep ", " (y :: ys)).data = _
        rw [String.data_append, String.data_append]
      rw [hdata] at hc
      rcases List.mem_append.mp hc with h1 | h2
      · rcases List.mem_append.mp h1 with h3 | h4
        · exact h x (by simp) c h3
        · simp at h4
          rcases h4 with rfl | rfl
          · exact ⟨by decide, by decide⟩
          · exact ⟨by decide, by decide⟩
      · exact ih (fun s hs => h s (by simp [hs])) c h2

/-- The base sentence of the `NoTranscriptFound` message is bracket-free when
the video id is. -/
theorem noTranscriptBase_no_bracket (v : String)
    (hv : ∀ c ∈ v.data, c ≠ '[' ∧ c ≠ ']') :
    ∀ c ∈ (noTranscriptBase v).data, c ≠ '[' ∧ c ≠ ']' := by
  intro c hc
  have hdata : (noTranscriptBase v).data =
      "Could not find a transcript for video '".data ++
        (v.data ++ "' in the requested language(s).".data) := by
    show ("Could not find a transcript for video '" ++ v ++ "' " ++
      "in the requested language(s).").data = _
    simp only [String.data_append, List.append_assoc]
    rfl
  rw [hdata] at hc
  have hpre : ∀ x ∈ "Could not find a transcript for video '".data,
      x ≠ '[' ∧ x ≠ ']' := by decide
  have hpost : ∀ x ∈ "' in the requested language(s).".data,
      x ≠ '[' ∧ x ≠ ']' := by decide
  rcases List.mem_append.mp hc with h1 | h2
  · exact hpre c h1
  · rcases List.mem_append.mp h2 with h3 | h4
    · exact hv c h3
    · exact hpost c h4

/-- Rendered form of the `NoTranscriptFound` message with languages: the
markup tags around the tried languages disappear and the plain detail text
remains. -/
theorem renderMarkup_noTranscript_some (v d l0 : String) (ls : List String)
    (hl : ∀ s ∈ l0 :: ls, ∀ c ∈ s.data, c ≠ '[' ∧ c ≠ ']')
    (hv : ∀ c ∈ v.data, c ≠ '[' ∧ c ≠ ']')
    (hd : ∀ c ∈ d.data, c ≠ '[') :
    renderMarkup (noTranscriptFoundLog v (some (l0 :: ls)) d) =
      (noTranscriptBase v ++ " ") ++
        ("Tried languages: " ++ joinSep ", " (l0 :: ls)) ++
        (". Details: " ++ d) := by
  have hmsg : noTranscriptFoundLog v (some (l0 :: ls)) d =
      noTranscriptBase v ++ " Tried languages: [yellow]" ++
        joinSep ", " (l0 :: ls) ++ "[/yellow]." ++ " Details: [dim]" ++ d ++
        "[/dim]" := rfl
  have hdata : (noTranscriptFoundLog v (some (l0 :: ls)) d).data =
      ((noTranscriptBase v).data ++ " Tried languages: ".data) ++
        ('[' :: ("yellow".data ++ (']' ::
          ((joinSep ", " (l0 :: ls)).data ++ ('[' :: ("/yellow".data ++ (']' ::
            (". Details: ".data ++ ('[' :: ("dim".data ++ (']' ::
              (d.data ++ ('[' :: ("/dim".data ++
                (']' :: ([] : List Char)))))))))))))))) := by
    rw [hmsg]
    simp only [String.data_append, List.append_assoc]
    rfl
  have hA1 : ∀ c ∈ (noTranscriptBase v).data ++ " Tried languages: ".data,
      c ≠ '[' := by
    intro c hc
    rcases List.mem_append.mp hc with h1 | h2
    · exact (noTranscriptBase_no_bracket v hv c h1).1
    · have hlit : ∀ x ∈ " Tried languages: ".data, x ≠ '[' := by decide
      exact hlit c h2
  have hy : ∀ c ∈ "yellow".data, c ≠ ']' := by decide
  have hsy : ∀ c ∈ "/yellow".data, c ≠ ']' := by decide
  have hdim : ∀ c ∈ "dim".data, c ≠ ']' := by decide
  have hsd : ∀ c ∈ "/dim".data, c ≠ ']' := by decide
  have hA2 : ∀ c ∈ ". Details: ".data, c ≠ '[' := by decide
  have hJ : ∀ c ∈ (joinSep ", " (l0 :: ls)).data, c ≠ '[' :=
    fun c hc => (joinSep_comma_no_bracket (l0 :: ls) hl c hc).1
  show String.mk
    (renderMarkupAux false ((noTranscriptFoundLog v (some (l0 :: ls)) d).data)) = _
  rw [hdata]
  rw [renderAux_copy _ _ hA1]
  rw [renderAux_lbrack]
  rw [renderAux_skip _ _ hy]
  rw [renderAux_copy _ _ hJ]
  rw [renderAux_lbrack]
  rw [renderAux_skip _ _ hsy]
  rw [renderAux_copy _ _ hA2]
  rw [renderAux_lbrack]
  rw [renderAux_skip _ _ hdim]
  rw [renderAux_copy _ _ hd]
  rw [renderAux_lbrack]
  rw [renderAux_skip _ _ hsd]
  refine congrArg String.mk ?_
  have hnil : renderMarkupAux false [] = ([] : List Char) := rfl
  rw [hnil, List.append_nil]
  unfold noTranscriptBase
  simp only [String.data_append, List.append_assoc]
  rfl

/-- C5: with a supplied (non-empty) languages list, the rendered
`NoTranscriptFound` log message contains the text `Tried languages: `
followed immediately by the requested codes joined by `", "` in order; with
no languages supplied, the message has no tried-languages detail (checked on
a representative instance). -/
theorem noTranscriptFound_tried_languages (v d : String) (langs : List String)
    (hne : langs ≠ [])
    (hl : ∀ s ∈ langs, ∀ c ∈ s.data, c ≠ '[' ∧ c ≠ ']')
    (hv : ∀ c ∈ v.data, c ≠ '[' ∧ c ≠ ']')
    (hd : ∀ c ∈ d.data, c ≠ '[') :
    (∃ a b, renderMarkup (noTranscriptFoundLog v (some langs) d) =
        a ++ ("Tried languages: " ++ joinSep ", " langs) ++ b) ∧
    strContainsB (renderMarkup (noTranscriptFoundLog "anyvid" none "no data"))
      "Tried languages" = false := by
  refine ⟨?_, by decide⟩
  obtain ⟨l0, ls, rfl⟩ : ∃ l0 ls, langs = l0 :: ls := by
    cases langs with
    | nil => exact absurd rfl hne
    | cons a as => exact ⟨a, as, rfl⟩
  exact ⟨noTranscriptBase v ++ " ", ". Details: " ++ d,
    renderMarkup_noTranscript_some v d l0 ls hl hv hd⟩

/-- Witness for C5 at video `abc`, languages `["es","fr"]`, details
`"details"`. -/
theorem noTranscriptFound_tried_languages_witness :
    (∃ a b,
      renderMarkup (noTranscriptFoundLog "abc" (some ["es", "fr"]) "details") =
        a ++ ("Tried languages: " ++ joinSep ", " ["es", "fr"]) ++ b) ∧
    strContainsB (renderMarkup (noTranscriptFoundLog "anyvid" none "no data"))
      "Tried languages" = false :=
  noTranscriptFound_tried_languages "abc" "details" ["es", "fr"] (by decide)
    (by decide) (by decide) (by decide)
